import Mathlib

/-!
Verification model of the telegram-sms/language_pack maintenance scripts.

The repository holds three independent batch tools:
* `.github/scripts/update_templates.py`  — template reconciler (backfills
  required `TPL_*` entries from the English reference `template.xml`);
* `.github/scripts/format_templates.py` — template formatter (rewrites each
  language's `template.xml`, appending missing required entries from a static
  per-language translation table);
* `.github/scripts/split_language_packs.py` — categorizer (splits a
  monolithic `strings.xml` into per-category files).

The shallow embedding below translates the Python functions into pure Lean
functions.  Python dicts are modelled as association lists with Python's
insertion-order / last-write-wins semantics (`dictInsert`).  File contents are
modelled structurally: an XML `template.xml` body is a list of `XmlNode`s
(lxml tree children), the regex-based formatter sees a list of raw
`(name, text)` element pairs, and file-system states distinguish an absent
file, an unreadable/malformed file, and a parsed body.  Writes are modelled by
returning the written content (`Option`/`Except` for "no write" and for an
uncaught exception).
-/

namespace LangPack

/-- Python dict update `d[k] = v`: if the key is present, the value is
replaced in place (the key keeps its original position); otherwise the pair is
appended at the end. -/
def dictInsert (m : List (String × String)) (k v : String) : List (String × String) :=
  if m.any (fun p => p.1 = k) then
    m.map (fun p => if p.1 = k then (k, v) else p)
  else
    m ++ [(k, v)]

/-- Builds a Python dict from a sequence of key/value pairs (in iteration
order, later pairs overwriting earlier ones in place). -/
def dictOfPairs (ps : List (String × String)) : List (String × String) :=
  ps.foldl (fun m p => dictInsert m p.1 p.2) []

/-- Python `k in d` on the dict model. -/
def keyMem (m : List (String × String)) (k : String) : Bool :=
  m.any (fun p => p.1 = k)

/-- Python `d[k]` / `d.get(k)` on the dict model. -/
def assocLookup (m : List (String × String)) (k : String) : Option String :=
  (m.find? (fun p => p.1 = k)).map (fun p => p.2)

/-- Python `str.startswith`, written on the underlying character lists. -/
def isPrefixChars : List Char → List Char → Bool
  | [], _ => true
  | _ :: _, [] => false
  | x :: xs, y :: ys => if x = y then isPrefixChars xs ys else false

/-- Python `s.startswith(p)`. -/
def startsWithStr (s p : String) : Bool :=
  isPrefixChars p.data s.data

/-!
## update_templates.py — template reconciler

`template.xml` bodies are lxml trees: the root's children are comments and
`<string name="...">text</string>` elements (`root.findall('string')` visits
only the latter).  `FileState` distinguishes the three situations the script
meets on disk: no file, a file `etree.parse` raises on, and a parsed body.
-/

/-- A child of the `<resources>` root element as seen by lxml. -/
inductive XmlNode
  | comment (text : String)
  | stringElem (name : String) (text : String)
deriving DecidableEq

/-- The name of a string element (`elem.get('name')` with lxml returning the
attribute, `none` for comments).  An empty attribute is the falsy value the
script skips. -/
def nodeName : XmlNode → Option String
  | XmlNode.stringElem n _ => if n = "" then none else some n
  | XmlNode.comment _ => none

/-- Is the node a comment? -/
def isCommentNode : XmlNode → Bool
  | XmlNode.comment _ => true
  | XmlNode.stringElem _ _ => false

/-- State of a language pack's `template.xml` on disk. -/
inductive FileState
  | absent
  | malformed
  | parsed (nodes : List XmlNode)
deriving DecidableEq

/-- The `name`/text pairs of the string elements of a body, in document
order (elements with a missing or empty `name` attribute are skipped). -/
def stringEntries (nodes : List XmlNode) : List (String × String) :=
  nodes.filterMap (fun node =>
    match node with
    | XmlNode.stringElem n t => if n = "" then none else some (n, t)
    | XmlNode.comment _ => none)

/-- `parse_template_xml` (update_templates.py:28): builds the dict of
`string` elements keyed by their `name` attribute; any parse error is caught,
logged and turned into the empty dict. -/
def parse_template_xml (fs : FileState) : List (String × String) :=
  match fs with
  | FileState.parsed nodes => dictOfPairs (stringEntries nodes)
  | _ => []

/-- `REQUIRED_TEMPLATES` (update_templates.py:13). -/
def REQUIRED_TEMPLATES : List String :=
  [ ("TPL_received_sms"),
    ("TPL_received_mms"),
    ("TPL_send_sms"),
    ("TPL_missed_call"),
    ("TPL_notification"),
    ("TPL_send_USSD"),
    ("TPL_system_message"),
    ("TPL_battery"),
    ("TPL_receiving_call"),
    ("TPL_send_sms_chat"),
    ("TPL_send_USSD_chat") ]

/-- The body written by the file-absent branch of `update_template_file`
(update_templates.py:72-90): one element per required name found in the
reference dict, with the reference text and no comment. -/
def freshTemplates (reference : List (String × String)) : List XmlNode :=
  REQUIRED_TEMPLATES.filterMap (fun name =>
    (assocLookup reference name).map (fun t => XmlNode.stringElem name t))

/-- The required names missing from an existing dict, in required order
(update_templates.py:96-98). -/
def missingOf (existing : List (String × String)) : List String :=
  REQUIRED_TEMPLATES.filter (fun name => !(keyMem existing name))

/-- The nodes appended for one missing name (update_templates.py:107-116): a
`TODO` comment followed by the element with the reference text, or nothing
when the name is absent from the reference dict. -/
def additionFor (reference : List (String × String)) (name : String) : List XmlNode :=
  match assocLookup reference name with
  | some t =>
      [ XmlNode.comment (" TODO: Translate " ++ name ++ " "),
        XmlNode.stringElem name t ]
  | none => []

/-- `update_template_file` (update_templates.py:68-126).  Returns
`.ok (some body)` when the file is (re)written with `body` as the root's
children, `.ok none` when nothing is missing and no write happens, and
`.error ()` for the uncaught `etree.parse` exception: on a malformed file
`parse_template_xml` yields the empty dict, every required name is missing,
and the unguarded re-parse at update_templates.py:104 raises. -/
def update_template_file (fs : FileState) (reference : List (String × String)) :
    Except Unit (Option (List XmlNode)) :=
  match fs with
  | FileState.absent => Except.ok (some (freshTemplates reference))
  | FileState.malformed =>
      let missing := missingOf (parse_template_xml FileState.malformed)
      if missing.isEmpty then Except.ok none else Except.error ()
  | FileState.parsed nodes =>
      let existing := parse_template_xml (FileState.parsed nodes)
      let missing := missingOf existing
      if missing.isEmpty then Except.ok none
      else Except.ok (some (nodes ++ missing.flatMap (additionFor reference)))

/-- `check_and_update_language_packs` (update_templates.py:129-199) after the
reference dict has been loaded: `none` models the early `return` when the
reference dict is empty (file absent or without named `string` elements);
otherwise every pack is processed in order, an uncaught per-language
exception aborting the remainder of the batch. -/
def check_and_update (reference : List (String × String)) (packs : List FileState) :
    Option (Except Unit (List (Option (List XmlNode)))) :=
  if reference.isEmpty then none
  else some (packs.mapM (fun fs => update_template_file fs reference))

example :
    update_template_file FileState.absent [("TPL_received_sms", "X")] =
      Except.ok (some [XmlNode.stringElem ("TPL_received_sms") ("X")]) := rfl

example :
    update_template_file FileState.malformed [("TPL_received_sms", "X")] =
      Except.error () := rfl

/-!
## format_templates.py — template formatter

`create_template_xml` builds the new file content line by line with f-strings
and joins the lines with a newline.  We mirror it with a structured line type
`XLine` rendered by `renderLine` to exactly the strings the Python code
appends, joined by `joinLines` (Python `'\n'.join`).  Its regex-based loader
`parse_template_file` sees the file as raw `(name, text)` element pairs; the
regex `<string name="(TPL_[^"]+)">([^<]+)</string>` keeps a pair when the
name is `TPL_` followed by at least one character (attribute values carry no
raw double quote) and the text is non-empty and free of `<`.
-/

/-- `TEMPLATE_TRANSLATIONS` (format_templates.py:12-60). -/
def TEMPLATE_TRANSLATIONS : List (String × List (String × String)) :=
  [ ("zh-rCN",
      [ ("TPL_system_message", "[系统信息]\n\x7b\x7bMessage\x7d\x7d"),
        ("TPL_battery", "[电池监控]\n电池电量: \x7b\x7bBatteryLevel\x7d\x7d%\n\x7b\x7bMessage\x7d\x7d"),
        ("TPL_send_USSD_chat", "[发送 USSD]\n\x7b\x7bContent\x7d\x7d") ]),
    ("zh-rTW",
      [ ("TPL_system_message", "[系統資訊]\n\x7b\x7bMessage\x7d\x7d"),
        ("TPL_battery", "[電池監控]\n電池電量: \x7b\x7bBatteryLevel\x7d\x7d%\n\x7b\x7bMessage\x7d\x7d"),
        ("TPL_send_USSD_chat", "[傳送 USSD]\n\x7b\x7bContent\x7d\x7d") ]),
    ("zh-rHK",
      [ ("TPL_system_message", "[系統資訊]\n\x7b\x7bMessage\x7d\x7d"),
        ("TPL_battery", "[電池監控]\n電池電量: \x7b\x7bBatteryLevel\x7d\x7d%\n\x7b\x7bMessage\x7d\x7d"),
        ("TPL_send_USSD_chat", "[傳送 USSD]\n\x7b\x7bContent\x7d\x7d"),
        ("TPL_receiving_call", "[\x7b\x7bSIM\x7d\x7d接聽來電]\n來自: \x7b\x7bFrom\x7d\x7d") ]),
    ("yue-rCN",
      [ ("TPL_system_message", "[系统信息]\n\x7b\x7bMessage\x7d\x7d"),
        ("TPL_battery", "[电池监控]\n电池电量: \x7b\x7bBatteryLevel\x7d\x7d%\n\x7b\x7bMessage\x7d\x7d"),
        ("TPL_send_USSD_chat", "[发送 USSD]\n\x7b\x7bContent\x7d\x7d") ]),
    ("yue-rHK",
      [ ("TPL_system_message", "[系統資訊]\n\x7b\x7bMessage\x7d\x7d"),
        ("TPL_battery", "[電池監控]\n電池電量: \x7b\x7bBatteryLevel\x7d\x7d%\n\x7b\x7bMessage\x7d\x7d"),
        ("TPL_send_USSD_chat", "[傳送 USSD]\n\x7b\x7bContent\x7d\x7d"),
        ("TPL_receiving_call", "[\x7b\x7bSIM\x7d\x7d接聽嚟電]\n來自: \x7b\x7bFrom\x7d\x7d") ]),
    ("ja-rJP",
      [ ("TPL_system_message", "[システム情報]\n\x7b\x7bMessage\x7d\x7d"),
        ("TPL_battery", "[バッテリー監視]\nバッテリーレベル: \x7b\x7bBatteryLevel\x7d\x7d%\n\x7b\x7bMessage\x7d\x7d"),
        ("TPL_send_USSD_chat", "[USSD送信]\n\x7b\x7bContent\x7d\x7d") ]),
    ("es-rES",
      [ ("TPL_system_message", "[Información del Sistema]\n\x7b\x7bMessage\x7d\x7d"),
        ("TPL_battery", "[Monitoreo de Batería]\nNivel de batería: \x7b\x7bBatteryLevel\x7d\x7d%\n\x7b\x7bMessage\x7d\x7d"),
        ("TPL_send_USSD_chat", "[Enviar USSD]\n\x7b\x7bContent\x7d\x7d") ]),
    ("ru",
      [ ("TPL_system_message", "[Системная информация]\n\x7b\x7bMessage\x7d\x7d"),
        ("TPL_battery", "[Мониторинг батареи]\nУровень батареи: \x7b\x7bBatteryLevel\x7d\x7d%\n\x7b\x7bMessage\x7d\x7d"),
        ("TPL_send_USSD_chat", "[Отправить USSD]\n\x7b\x7bContent\x7d\x7d") ]),
    ("vi",
      [ ("TPL_system_message", "[Thông tin hệ thống]\n\x7b\x7bMessage\x7d\x7d"),
        ("TPL_battery", "[Giám sát pin]\nMức pin: \x7b\x7bBatteryLevel\x7d\x7d%\n\x7b\x7bMessage\x7d\x7d"),
        ("TPL_send_USSD_chat", "[Gửi USSD]\n\x7b\x7bContent\x7d\x7d") ]) ]

/-- `TEMPLATE_TRANSLATIONS.get(lang_code, {})` (format_templates.py:68). -/
def langTranslations (langCode : String) : List (String × String) :=
  (((TEMPLATE_TRANSLATIONS.find? (fun p => p.1 = langCode)).map (fun p => p.2))).getD []

/-- The `required` list local to `create_template_xml`
(format_templates.py:77-82). -/
def requiredFormat : List String :=
  [ ("TPL_system_message"),
    ("TPL_battery"),
    ("TPL_send_USSD_chat"),
    ("TPL_receiving_call") ]

/-- One line of the file content built by `create_template_xml`, before
joining.  `entry n v` stands for the f-string
`'    <string name="N">V</string>'` appended for one template. -/
inductive XLine
  | decl
  | openRes
  | closeRes
  | blank
  | entry (name text : String)
deriving DecidableEq

/-- The exact string the Python code appends for each `XLine`. -/
def renderLine : XLine → String
  | XLine.decl => "<?xml version=\"1.0\" encoding=\"utf-8\"?>"
  | XLine.openRes => "<resources>"
  | XLine.closeRes => "</resources>"
  | XLine.blank => ""
  | XLine.entry n v => "    <string name=\"" ++ n ++ "\">" ++ v ++ "</string>"

/-- Python `'\n'.join(lines)`. -/
def joinLines : List String → String
  | [] => ""
  | [s] => s
  | s :: rest => s ++ "\n" ++ joinLines rest

/-- The name of an entry line, `none` for the fixed scaffolding lines. -/
def entryLineName : XLine → Option String
  | XLine.entry n _ => some n
  | _ => none

/-- The line list built by `create_template_xml` (format_templates.py:63-94):
header, the existing templates in dict order (only names starting with
`TPL_`), then each required template that is missing from `existing` and has
a translation for this language, then the closing tag and the final blank
line. -/
def create_template_lines (langCode : String) (existing : List (String × String)) :
    List XLine :=
  let translations := langTranslations langCode
  [XLine.decl, XLine.openRes]
    ++ existing.filterMap (fun p =>
        if startsWithStr p.1 ("TPL_") then some (XLine.entry p.1 p.2) else none)
    ++ requiredFormat.filterMap (fun name =>
        if keyMem existing name then none
        else (assocLookup translations name).map (fun v => XLine.entry name v))
    ++ [XLine.closeRes, XLine.blank]

/-- `create_template_xml` (format_templates.py:63-94): the returned file
content, `'\n'.join` of the built lines. -/
def create_template_xml (langCode : String) (existing : List (String × String)) : String :=
  joinLines ((create_template_lines langCode existing).map renderLine)

/-- State of a `template.xml` as seen by the regex-based loader: absent,
unreadable (`read_text` raises, caught and logged), or readable with the
given `<string>` elements as raw name/text pairs in document order. -/
inductive FFile
  | absent
  | unreadable
  | content (entries : List (String × String))
deriving DecidableEq

/-- Does a raw element match the regex
`<string name="(TPL_[^"]+)">([^<]+)</string>` (format_templates.py:109)?
The name is `TPL_` plus at least one more character and the text is non-empty
and contains no `<`. -/
def tplMatches (p : String × String) : Bool :=
  startsWithStr p.1 ("TPL_") && p.1 != "TPL_" && p.2 != "" && !(p.2.data.contains '<')

/-- `parse_template_file` (format_templates.py:97-118): the dict of matching
elements; an absent or unreadable file yields the empty dict. -/
def parse_template_file (fs : FFile) : List (String × String) :=
  match fs with
  | FFile.content es => dictOfPairs (es.filter tplMatches)
  | _ => []

/-- `update_language_pack` (format_templates.py:121-143): parses the existing
file; when the parsed dict is empty it returns without writing (`none`),
otherwise it writes the freshly formatted content (`some content`). -/
def update_language_pack (fs : FFile) (langCode : String) : Option String :=
  let existing := parse_template_file fs
  if existing.isEmpty then none
  else some (create_template_xml langCode existing)

example :
    create_template_lines ("xx") [("TPL_x", "v")] =
      [XLine.decl, XLine.openRes, XLine.entry ("TPL_x") ("v"),
       XLine.closeRes, XLine.blank] := by
  decide

example :
    create_template_xml ("xx") [("TPL_x", "v")] =
      "<?xml version=\"1.0\" encoding=\"utf-8\"?>\n<resources>\n    <string name=\"TPL_x\">v</string>\n</resources>\n" := by
  decide

example : update_language_pack FFile.absent ("ru") = none := rfl

example : parse_template_file (FFile.content [("TPL_", "x")]) = [] := rfl

/-!
## split_language_packs.py — categorizer

The monolithic `strings.xml` is parsed into a dict from `name` attribute to
element (`parse_strings_xml`); a bundle is modelled as the dict's value list,
a list of named elements with distinct names.  `sorted(string_names)` is
Python's code-point-lexicographic string sort, modelled by `sortStrings`
(insertion sort by `strLe`, lexicographic on `Char.toNat`).
-/

/-- A `<string>` element of `strings.xml`, carrying its `name` attribute and
its content. -/
structure SElem where
  name : String
  text : String
deriving DecidableEq

/-- Lexicographic comparison of character lists by code point, as Python
compares strings. -/
def lexLe : List Char → List Char → Bool
  | [], _ => true
  | _ :: _, [] => false
  | x :: xs, y :: ys =>
    if x.toNat < y.toNat then true
    else if y.toNat < x.toNat then false
    else lexLe xs ys

/-- Python string comparison `a <= b` (code-point lexicographic). -/
def strLe (a b : String) : Bool :=
  lexLe a.data b.data

/-- The ordering proposition behind `strLe`. -/
def strLeProp (a b : String) : Prop :=
  strLe a b = true

instance : DecidableRel strLeProp := fun a b =>
  if h : strLe a b = true then isTrue h else isFalse h

instance : IsTotal String strLeProp := by
  constructor
  have key : ∀ xs ys : List Char, lexLe xs ys = true ∨ lexLe ys xs = true := by
    intro xs
    induction xs with
    | nil => intro ys; left; rfl
    | cons x xs ih =>
      intro ys
      cases ys with
      | nil => right; rfl
      | cons y ys =>
        simp only [lexLe]
        rcases Nat.lt_trichotomy x.toNat y.toNat with hxy | hxy | hxy
        · left; simp [hxy]
        · rcases ih ys with h | h
          · left; simp [hxy, Nat.lt_irrefl, h]
          · right; simp [hxy, Nat.lt_irrefl, h]
        · right; simp [hxy]
  intro a b
  exact key a.data b.data

instance : IsTrans String strLeProp := by
  constructor
  have key : ∀ xs ys zs : List Char,
      lexLe xs ys = true → lexLe ys zs = true → lexLe xs zs = true := by
    intro xs
    induction xs with
    | nil => intro ys zs h1 h2; rfl
    | cons x xs ih =>
      intro ys zs h1 h2
      cases ys with
      | nil => simp [lexLe] at h1
      | cons y ys =>
        cases zs with
        | nil => simp [lexLe] at h2
        | cons z zs =>
          simp only [lexLe] at h1 h2 ⊢
          split_ifs at h1 h2 ⊢ <;>
            first
            | rfl
            | omega
            | exact ih ys zs h1 h2
  intro a b c h1 h2
  exact key a.data b.data c.data h1 h2

instance : IsAntisymm String strLeProp := by
  constructor
  have key : ∀ xs ys : List Char, lexLe xs ys = true → lexLe ys xs = true → xs = ys := by
    intro xs
    induction xs with
    | nil =>
      intro ys h1 h2
      cases ys with
      | nil => rfl
      | cons y ys => simp [lexLe] at h2
    | cons x xs ih =>
      intro ys h1 h2
      cases ys with
      | nil => simp [lexLe] at h1
      | cons y ys =>
        simp only [lexLe] at h1 h2
        rcases Nat.lt_trichotomy x.toNat y.toNat with hxy | hxy | hxy
        · simp [hxy, Nat.lt_asymm hxy] at h2
        · have hx : x = y := Char.eq_of_val_eq (UInt32.ext hxy)
          subst hx
          simp only [Nat.lt_irrefl, if_false] at h1 h2
          rw [ih ys h1 h2]
        · simp [hxy, Nat.lt_asymm hxy] at h1
  intro a b h1 h2
  have h := key a.data b.data h1 h2
  cases a
  cases b
  simp_all

/-- Python `sorted` on a collection of strings. -/
def sortStrings (l : List String) : List String :=
  List.insertionSort strLeProp l

/-- `all_strings[name]` on the bundle model: the first (unique) element with
the given name. -/
def findByName (b : List SElem) (n : String) : Option SElem :=
  b.find? (fun e => e.name = n)

/-- The per-category element list built by `split_language_pack`
(split_language_packs.py:205-211): for each name of the category's key set in
sorted order, the bundle's element of that name, if any. -/
def categoryEntries (catKeys : List String) (b : List SElem) : List SElem :=
  (sortStrings catKeys).filterMap (fun n => findByName b n)

/-- The files written by `split_language_pack` (split_language_packs.py:
204-215): one output per category whose collected element list is non-empty,
keyed by the category file name. -/
def splitOutputs (schema : List (String × List String)) (b : List SElem) :
    List (String × List SElem) :=
  schema.filterMap (fun c =>
    let cs := categoryEntries c.2 b
    if cs.isEmpty then none else some (c.1, cs))

/-- The `categorized` set accumulated across the category loops
(split_language_packs.py:208-211), as the list of names added: a name is
added exactly when it lies in some category's key set and in the bundle. -/
def categorizedList (schema : List (String × List String)) (b : List SElem) :
    List String :=
  schema.flatMap (fun c =>
    (sortStrings c.2).filter (fun n => (findByName b n).isSome))

/-- The uncategorized names (split_language_packs.py:218-220): bundle names,
in bundle order, that were never categorized. -/
def uncategorizedKeys (schema : List (String × List String)) (b : List SElem) :
    List String :=
  (b.map SElem.name).filter (fun n => !((categorizedList schema b).contains n))

/-- Python `set.update`: the left set plus the right set's new members. -/
def setUpdate (base add : List String) : List String :=
  base ++ add.filter (fun s => !(base.contains s))

/-- The merge loop over `ADDITIONAL_STRINGS` (split_language_packs.py:
135-137): each category of the base schema present in the extra table gets
the extra names added to its key set. -/
def mergeCategories (base extra : List (String × List String)) :
    List (String × List String) :=
  base.map (fun c =>
    match extra.find? (fun d => d.1 = c.1) with
    | some d => (c.1, setUpdate c.2 d.2)
    | none => c)

/-- `STRING_CATEGORIES` as written (split_language_packs.py:14-113), before
the `ADDITIONAL_STRINGS` merge. -/
def STRING_CATEGORIES_BASE : List (String × List String) :=
  [ ("strings.xml", [("Lang"), ("time_format")]),
    ("strings_battery.xml",
      [ ("battery_low"), ("charger_connect"), ("charger_disconnect"),
        ("current_battery_level"), ("low_battery_status_end"),
        ("battery_monitoring"), ("battery_monitoring_notify"),
        ("charger_status"), ("charging"), ("not_charging"), ("battery_title") ]),
    ("strings_telegram.xml",
      [ ("success_connect"), ("connect_wait_title"), ("connect_wait_message"),
        ("select_chat"), ("bot_token"), ("chat_id"), ("message_thread_id"),
        ("get_recent_chat_id"), ("test_and_save"), ("token_not_configure"),
        ("chat_id_or_token_not_config"), ("unable_get_recent"),
        ("chat_command"), ("unknown_command"), ("chat_command_service_name"),
        ("get_recent_chat_title"), ("get_recent_chat_message"),
        ("using_privacy_mode"), ("set_api_title"),
        ("available_command"), ("sendsms_dual"), ("sendsms"),
        ("send_ussd_command"), ("send_ussd_dual_command"),
        ("get_spam_sms"), ("spam_count_title"), ("no_spam_history") ]),
    ("strings_sms.xml",
      [ ("trusted_phone_number"), ("network_error_falls_back_to_sms"),
        ("trusted_phone_number_empty"), ("display_sim_card_alias_in_dual_card_mode"),
        ("using_verification_code_identification"), ("enter_reply_number"),
        ("enter_reply_content"), ("unable_get_phone_number"), ("failed_resend"),
        ("keywords"), ("spam_sms_keyword_title"), ("spam_keyword_edit_title"),
        ("spam_keyword_add_title"), ("unable_to_obtain_information"),
        ("template_title"), ("send_sms_title"), ("receive_sms_title"),
        ("receive_mms_title"), ("verification_code"), ("this_is_a_test_message"),
        ("please_reply_to_continue"),
        ("enter_number"), ("enter_content"),
        ("listsms_command"), ("listsms_inbox_command"), ("sms_list_header"),
        ("sms_list_empty"), ("sms_detail_header"), ("sms_from"), ("sms_to"),
        ("sms_date"), ("sms_content"), ("sms_type_inbox"), ("sms_type_sent"),
        ("sms_type_all"), ("sms_not_found"), ("sms_deleted"), ("sms_delete_failed"),
        ("sms_delete_confirm"), ("not_default_sms_app"), ("prev_page"), ("next_page") ]),
    ("strings_call.xml",
      [ ("receive_call_title"), ("missed_call_title"), ("call_notify"),
        ("receiving_call_title"), ("Incoming_number"), ("hide_phone_number") ]),
    ("strings_ussd.xml",
      [ ("ussd_code_running"), ("enter_ussd_code"), ("invalid_ussd_code"),
        ("send_ussd_title") ]),
    ("strings_network.xml",
      [ ("current_network_connection_status"), ("airplane_mode"), ("no_network"),
        ("using_doh"), ("proxy_enable"), ("proxy_host"), ("proxy_port"),
        ("proxy_username"), ("proxy_password"), ("proxy_title"),
        ("proxy_dialog_title"), ("doh_over_socks5") ]),
    ("strings_cc.xml",
      [ ("edit_cc_service"), ("add_cc_service"), ("copy_notification_menu"),
        ("cc_service_enabled"), ("cc_service_disabled"), ("cc_service_config_title") ]),
    ("strings_notification.xml",
      [ ("Notification_Listener_title"), ("set_notification_listener"),
        ("receive_notification_title"), ("app_name_title"), ("title") ]),
    ("strings_scanner.xml",
      [ ("scan_title"), ("no_camera_permission"), ("transfer_configuration"),
        ("qrcode_notice"), ("an_error_occurred_while_decrypting_the_configuration"),
        ("an_error_occurred_while_getting_the_configuration"),
        ("error_id_cannot_be_empty"), ("error_password_cannot_be_empty"),
        ("error_id_must_be_9_characters"), ("configuration_sent_successfully"),
        ("please_enter_your_info"), ("getting_configuration"),
        ("sending_configuration"), ("please_enter_your_password"),
        ("error_password_must_be_6_characters"), ("invalid_json_structure"),
        ("no_entries_available") ]),
    ("strings_privacy_about.xml",
      [ ("user_manual"), ("privacy_policy"), ("donate"),
        ("privacy_reminder_information"), ("privacy_reminder_title"),
        ("agree"), ("decline"), ("visit_page"), ("about_title"), ("about_content"),
        ("check_update"), ("update_dialog_title"), ("update_dialog_body"),
        ("update_dialog_ok"), ("update_dialog_no"), ("browser_not_found") ]),
    ("strings_common.xml",
      [ ("logcat"), ("service_is_running"), ("success"), ("restart_service"),
        ("status"), ("send_failed"), ("failed_to_get_information"),
        ("sending"), ("no_logs"), ("app_list"), ("request"), ("time"),
        ("ok_button"), ("cancel_button"), ("delete_button"), ("send_button"),
        ("reset_button"), ("error_title"), ("no_service_available"),
        ("system_message_head") ]) ]

/-- `ADDITIONAL_STRINGS` (split_language_packs.py:116-132). -/
def ADDITIONAL_STRINGS : List (String × List String) :=
  [ ("strings_sms.xml",
      [ ("listsms_command"), ("listsms_inbox_command"), ("sms_list_header"),
        ("sms_list_empty"), ("sms_detail_header"), ("sms_from"), ("sms_to"),
        ("sms_date"), ("sms_content"), ("sms_type_inbox"), ("sms_type_sent"),
        ("sms_type_all"), ("sms_not_found"), ("sms_deleted"), ("sms_delete_failed"),
        ("sms_delete_confirm"), ("not_default_sms_app"), ("prev_page"), ("next_page") ]),
    ("strings_telegram.xml",
      [ ("available_command"), ("sendsms_dual"), ("sendsms"),
        ("send_ussd_command"), ("send_ussd_dual_command"),
        ("get_spam_sms"), ("spam_count_title"), ("no_spam_history") ]),
    ("strings_network.xml", [("no_service_available")]) ]

/-- `STRING_CATEGORIES` after the module-level merge loop. -/
def STRING_CATEGORIES : List (String × List String) :=
  mergeCategories STRING_CATEGORIES_BASE ADDITIONAL_STRINGS

/-!
## Helper lemmas
-/

theorem mem_sortStrings {n : String} {l : List String} : n ∈ sortStrings l ↔ n ∈ l :=
  (List.perm_insertionSort strLeProp l).mem_iff

theorem sortStrings_eq_of_perm {c1 c2 : List String} (h : c1.Perm c2) :
    sortStrings c1 = sortStrings c2 :=
  List.eq_of_perm_of_sorted
    ((List.perm_insertionSort strLeProp c1).trans
      (h.trans (List.perm_insertionSort strLeProp c2).symm))
    (List.sorted_insertionSort strLeProp c1)
    (List.sorted_insertionSort strLeProp c2)

theorem keyMem_of_assocLookup_some {m : List (String × String)} {k v : String}
    (h : assocLookup m k = some v) : keyMem m k = true := by
  unfold assocLookup at h
  cases hf : m.find? (fun p => p.1 = k) with
  | none => rw [hf] at h; cases h
  | some p =>
    have hp := List.find?_some hf
    have hm := List.mem_of_find?_eq_some hf
    exact List.any_eq_true.mpr ⟨p, hm, hp⟩

theorem assocLookup_mapUpdate_ne {k' v k : String} {m : List (String × String)}
    (hne : k' ≠ k) :
    assocLookup (m.map (fun p => if p.1 = k' then (k', v) else p)) k = assocLookup m k := by
  induction m with
  | nil => rfl
  | cons q m ih =>
    simp only [List.map_cons]
    by_cases hq : q.1 = k'
    · rw [if_pos hq]
      have h2 : q.1 ≠ k := by rw [hq]; exact hne
      unfold assocLookup
      rw [List.find?_cons_of_neg _ (by simpa using hne),
        List.find?_cons_of_neg _ (by simpa using h2)]
      exact ih
    · rw [if_neg hq]
      by_cases hqk : q.1 = k
      · unfold assocLookup
        rw [List.find?_cons_of_pos _ (by simpa using hqk),
          List.find?_cons_of_pos _ (by simpa using hqk)]
      · unfold assocLookup
        rw [List.find?_cons_of_neg _ (by simpa using hqk),
          List.find?_cons_of_neg _ (by simpa using hqk)]
        exact ih

theorem assocLookup_append_single_ne {k' v k : String} {m : List (String × String)}
    (hne : k' ≠ k) :
    assocLookup (m ++ [(k', v)]) k = assocLookup m k := by
  induction m with
  | nil =>
    show assocLookup [(k', v)] k = assocLookup [] k
    unfold assocLookup
    rw [List.find?_cons_of_neg _ (by simpa using hne)]
  | cons q m ih =>
    simp only [List.cons_append]
    by_cases hqk : q.1 = k
    · unfold assocLookup
      rw [List.find?_cons_of_pos _ (by simpa using hqk),
        List.find?_cons_of_pos _ (by simpa using hqk)]
    · unfold assocLookup
      rw [List.find?_cons_of_neg _ (by simpa using hqk),
        List.find?_cons_of_neg _ (by simpa using hqk)]
      exact ih

theorem assocLookup_dictInsert_ne {k' v k : String} {m : List (String × String)}
    (hne : k' ≠ k) :
    assocLookup (dictInsert m k' v) k = assocLookup m k := by
  unfold dictInsert
  split_ifs with hmem
  · exact assocLookup_mapUpdate_ne hne
  · exact assocLookup_append_single_ne hne

theorem assocLookup_foldl_dictInsert_ne {k : String} {ps : List (String × String)}
    (h : ∀ p ∈ ps, p.1 ≠ k) (m : List (String × String)) :
    assocLookup (ps.foldl (fun acc p => dictInsert acc p.1 p.2) m) k = assocLookup m k := by
  induction ps generalizing m with
  | nil => rfl
  | cons p ps ih =>
    simp only [List.foldl_cons]
    rw [ih (fun q hq => h q (List.mem_cons_of_mem _ hq)),
      assocLookup_dictInsert_ne (h p (List.mem_cons_self _ _))]

theorem stringEntries_append (l1 l2 : List XmlNode) :
    stringEntries (l1 ++ l2) = stringEntries l1 ++ stringEntries l2 := by
  unfold stringEntries
  exact List.filterMap_append l1 l2 _

theorem mem_missingOf_iff {existing : List (String × String)} {n : String} :
    n ∈ missingOf existing ↔ n ∈ REQUIRED_TEMPLATES ∧ keyMem existing n = false := by
  unfold missingOf
  simp [List.mem_filter]

theorem name_mem_of_mem_additions {reference : List (String × String)}
    {names : List String} {p : String × String}
    (hp : p ∈ stringEntries (names.flatMap (additionFor reference))) : p.1 ∈ names := by
  rcases List.mem_filterMap.mp hp with ⟨node, hnode, hmatch⟩
  rcases List.mem_flatMap.mp hnode with ⟨n, hn, hmem⟩
  unfold additionFor at hmem
  cases hlook : assocLookup reference n with
  | none => rw [hlook] at hmem; cases hmem
  | some t =>
    rw [hlook] at hmem
    rcases List.mem_cons.mp hmem with rfl | hmem'
    · cases hmatch
    · rcases List.mem_cons.mp hmem' with rfl | hmem''
      · by_cases hn0 : n = ""
        · simp [hn0] at hmatch
        · simp only [if_neg hn0] at hmatch
          cases hmatch
          exact hn
      · cases hmem''

theorem isInfix_append_left {α : Type} {l l₁ l₂ : List α} (h : l <:+: l₂) :
    l <:+: l₁ ++ l₂ := by
  obtain ⟨s, t, heq⟩ := h
  exact ⟨l₁ ++ s, t, by rw [← heq]; simp [List.append_assoc]⟩

theorem infix_flatMap_of_mem {α β : Type} {a : α} {l : List α} (f : α → List β)
    (h : a ∈ l) : f a <:+: l.flatMap f := by
  induction l with
  | nil => cases h
  | cons b l ih =>
    rw [List.flatMap_cons]
    rcases List.mem_cons.mp h with rfl | h'
    · exact (List.prefix_append (f a) _).isInfix
    · exact isInfix_append_left (ih h')

theorem filterMap_if_all {α β : Type} (f : α → β) (c : α → Bool) (l : List α)
    (h : ∀ a ∈ l, c a = true) :
    l.filterMap (fun a => if c a then some (f a) else none) = l.map f := by
  induction l with
  | nil => rfl
  | cons a l ih =>
    rw [List.filterMap_cons, List.map_cons, if_pos (h a (List.mem_cons_self _ _)),
      ih (fun a ha => h a (List.mem_cons_of_mem _ ha))]

theorem joinLines_cons_of_ne_nil (a : String) {l : List String} (h : l ≠ []) :
    joinLines (a :: l) = a ++ "\n" ++ joinLines l := by
  cases l with
  | nil => exact absurd rfl h
  | cons b l => rfl

theorem joinLines_append_blank (a : String) (l : List String) :
    joinLines ((a :: l) ++ [""]) = joinLines (a :: l) ++ "\n" := by
  induction l generalizing a with
  | nil => show (a ++ "\n") ++ "" = a ++ "\n"; simp
  | cons b l ih =>
    show a ++ "\n" ++ joinLines ((b :: l) ++ [""]) = (a ++ "\n" ++ joinLines (b :: l)) ++ "\n"
    rw [ih b]
    simp [String.append_assoc]

theorem dictInsert_ne_nil (m : List (String × String)) (k v : String) :
    dictInsert m k v ≠ [] := by
  unfold dictInsert
  split_ifs with hmem
  · intro hnil
    rw [List.map_eq_nil_iff] at hnil
    subst hnil
    simp at hmem
  · simp

theorem foldl_dictInsert_ne_nil {m : List (String × String)}
    (h : m ≠ []) (ps : List (String × String)) :
    ps.foldl (fun acc p => dictInsert acc p.1 p.2) m ≠ [] := by
  induction ps generalizing m with
  | nil => exact h
  | cons p ps ih => exact ih (dictInsert_ne_nil m p.1 p.2)

theorem dictOfPairs_eq_nil_iff {l : List (String × String)} :
    dictOfPairs l = [] ↔ l = [] := by
  constructor
  · intro h
    cases l with
    | nil => rfl
    | cons p ps =>
      unfold dictOfPairs at h
      rw [List.foldl_cons] at h
      exact absurd h (foldl_dictInsert_ne_nil (dictInsert_ne_nil [] p.1 p.2) ps)
  · intro h; subst h; rfl

theorem findByName_eq_of_mem {b : List SElem} {e : SElem}
    (hnd : (b.map SElem.name).Nodup) (he : e ∈ b) :
    findByName b e.name = some e := by
  cases hf : findByName b e.name with
  | none =>
    have := List.find?_eq_none.mp hf e he
    simp at this
  | some q =>
    have h1 : q.name = e.name := by
      have := List.find?_some hf
      simpa using this
    have h2 : q ∈ b := List.mem_of_find?_eq_some hf
    exact congrArg some (List.inj_on_of_nodup_map hnd h2 he h1)

theorem mem_of_mem_categoryEntries {ks : List String} {b : List SElem} {e : SElem}
    (h : e ∈ categoryEntries ks b) : e ∈ b := by
  rcases List.mem_filterMap.mp h with ⟨n, _, hf⟩
  exact List.mem_of_find?_eq_some hf

theorem findByName_perm_eq {b1 b2 : List SElem} (hperm : b1.Perm b2)
    (hnd : (b1.map SElem.name).Nodup) (n : String) :
    findByName b1 n = findByName b2 n := by
  cases hf : findByName b1 n with
  | some e =>
    have hname : e.name = n := by
      have := List.find?_some hf
      simpa using this
    have he2 : e ∈ b2 := hperm.mem_iff.mp (List.mem_of_find?_eq_some hf)
    have hnd2 : (b2.map SElem.name).Nodup := ((hperm.map SElem.name).nodup_iff).mp hnd
    have h2 : findByName b2 n = some e := by
      rw [← hname]
      exact findByName_eq_of_mem hnd2 he2
    exact h2.symm
  | none =>
    unfold findByName at hf ⊢
    rw [List.find?_eq_none] at hf
    symm
    rw [List.find?_eq_none]
    intro e he
    exact hf e (hperm.mem_iff.mpr he)

theorem update_parsed_eq {nodes : List XmlNode} {reference : List (String × String)}
    {out : List XmlNode}
    (h : update_template_file (FileState.parsed nodes) reference = Except.ok (some out)) :
    out = nodes ++
      (missingOf (parse_template_xml (FileState.parsed nodes))).flatMap
        (additionFor reference) := by
  unfold update_template_file at h
  cases hmiss : (missingOf (parse_template_xml (FileState.parsed nodes))).isEmpty with
  | true => simp [hmiss] at h
  | false =>
    simp only [hmiss] at h
    simp at h
    exact h.symm

theorem parse_append_preserves {nodes adds : List XmlNode} {k v : String}
    (hne : ∀ p ∈ stringEntries adds, p.1 ≠ k)
    (hk : assocLookup (parse_template_xml (FileState.parsed nodes)) k = some v) :
    assocLookup (parse_template_xml (FileState.parsed (nodes ++ adds))) k = some v := by
  show assocLookup (dictOfPairs (stringEntries (nodes ++ adds))) k = some v
  rw [stringEntries_append]
  unfold dictOfPairs
  rw [List.foldl_append]
  rw [assocLookup_foldl_dictInsert_ne hne]
  exact hk

/-!
## Claim theorems
-/

/-- C6: the reconciler run aborts before processing any language when the
reference dict is empty; but contrary to the claim, a per-language
`template.xml` that exists and is malformed is not merely logged and treated
as empty — after `parse_template_xml` swallows the first parse error,
`update_template_file` re-parses the same file unguarded and the uncaught
exception aborts the whole batch: with a malformed first pack, the second
(absent) pack is never processed. -/
theorem C6_malformed_aborts_batch :
    check_and_update [("TPL_received_sms", "X")] [FileState.malformed, FileState.absent] =
        some (Except.error ()) ∧
    check_and_update [] [FileState.malformed, FileState.absent] = none :=
  ⟨rfl, rfl⟩

/-- C10 (amended): the formatter performs no write whenever parsing the
template file yields an empty dict — in particular it never creates a
template file from scratch — and for a readable file the parsed dict is
empty exactly when no element satisfies `tplMatches`, i.e. no element has a
name that strictly extends `TPL_` (at least one character after the prefix)
together with a non-empty `<`-free text. -/
theorem C10_formatter_no_write_on_empty_parse :
    (∀ (fs : FFile) (langCode : String),
        parse_template_file fs = [] → update_language_pack fs langCode = none)
    ∧ (∀ langCode : String, update_language_pack FFile.absent langCode = none)
    ∧ (∀ es : List (String × String),
        parse_template_file (FFile.content es) = [] ↔ ∀ p ∈ es, tplMatches p = false) := by
  refine ⟨?_, ?_, ?_⟩
  · intro fs langCode h
    simp [update_language_pack, h]
  · intro langCode
    rfl
  · intro es
    unfold parse_template_file
    rw [dictOfPairs_eq_nil_iff, List.filter_eq_nil_iff]
    simp only [Bool.not_eq_true]

/-- C10 (counterexample): an element named exactly `TPL_` has a name that
starts with `TPL_` and a non-empty `<`-free text, yet the regex
`<string name="(TPL_[^"]+)">([^<]+)</string>` does not match it, the parsed
dict is empty and no write happens — refuting the claim's characterization
of when the parsed mapping is empty. -/
theorem C10_counterexample :
    startsWithStr ("TPL_") ("TPL_") = true ∧
    ("x" : String) ≠ "" ∧
    (("x" : String)).data.contains '<' = false ∧
    parse_template_file (FFile.content [("TPL_", "x")]) = [] ∧
    update_language_pack (FFile.content [("TPL_", "x")]) ("ru") = none :=
  ⟨by decide, by decide, by decide, rfl, rfl⟩

/-- C10 (witness): a readable file without `TPL_` entries is left alone. -/
theorem C10_formatter_no_write_witness :
    update_language_pack (FFile.content [("name", "y")]) ("ru") = none :=
  C10_formatter_no_write_on_empty_parse.1 (FFile.content [("name", "y")]) ("ru") rfl

/-- C5 (amended): `update_template_file` writes nothing when every required
template name is already a key of the existing parsed dict (the write is
strictly conditional on the missing list being non-empty).  The formatter
`update_language_pack`, by contrast, rewrites the file whenever its parsed
dict is non-empty, which the separate counterexample records. -/
theorem C5_no_write_when_nothing_missing :
    ∀ (nodes : List XmlNode) (reference : List (String × String)),
      (∀ n ∈ REQUIRED_TEMPLATES,
          keyMem (parse_template_xml (FileState.parsed nodes)) n = true) →
      update_template_file (FileState.parsed nodes) reference = Except.ok none := by
  intro nodes reference h
  have hm : missingOf (parse_template_xml (FileState.parsed nodes)) = [] := by
    rw [missingOf, List.filter_eq_nil_iff]
    intro n hn
    simp [h n hn]
  simp [update_template_file, hm]

/-- C5 (witness): a template file already holding all eleven required
templates is not rewritten. -/
theorem C5_no_write_witness :
    update_template_file (FileState.parsed
      [ XmlNode.stringElem ("TPL_received_sms") ("a"),
        XmlNode.stringElem ("TPL_received_mms") ("b"),
        XmlNode.stringElem ("TPL_send_sms") ("c"),
        XmlNode.stringElem ("TPL_missed_call") ("d"),
        XmlNode.stringElem ("TPL_notification") ("e"),
        XmlNode.stringElem ("TPL_send_USSD") ("f"),
        XmlNode.stringElem ("TPL_system_message") ("g"),
        XmlNode.stringElem ("TPL_battery") ("h"),
        XmlNode.stringElem ("TPL_receiving_call") ("i"),
        XmlNode.stringElem ("TPL_send_sms_chat") ("j"),
        XmlNode.stringElem ("TPL_send_USSD_chat") ("k") ]) [] = Except.ok none :=
  C5_no_write_when_nothing_missing _ [] (by decide)

/-- C5 (counterexample): the formatter writes even though every required
template is already present — the write is not conditional on the missing
set being non-empty. -/
theorem C5_counterexample :
    (requiredFormat.all (fun n =>
        keyMem (parse_template_file (FFile.content
          [ ("TPL_system_message", "a"), ("TPL_battery", "b"),
            ("TPL_send_USSD_chat", "c"), ("TPL_receiving_call", "d") ])) n) = true) ∧
    ((update_language_pack (FFile.content
          [ ("TPL_system_message", "a"), ("TPL_battery", "b"),
            ("TPL_send_USSD_chat", "c"), ("TPL_receiving_call", "d") ]) ("ru")).isSome
        = true) :=
  ⟨by decide, by decide⟩

/-- C3 (amended): on an absent file the reconciler writes a fresh body whose
elements are exactly the required names found in the reference dict, in
required order, each carrying the reference text verbatim — but no
pending-translation annotation accompanies them: the fresh-creation path
emits no comment at all. -/
theorem C3_fresh_creation :
    ∀ reference : List (String × String),
      update_template_file FileState.absent reference =
          Except.ok (some (freshTemplates reference)) ∧
      (freshTemplates reference).filterMap nodeName =
          REQUIRED_TEMPLATES.filter (fun n => (assocLookup reference n).isSome) ∧
      (∀ n t, XmlNode.stringElem n t ∈ freshTemplates reference →
          assocLookup reference n = some t) ∧
      (∀ c, XmlNode.comment c ∉ freshTemplates reference) := by
  intro reference
  refine ⟨rfl, ?_, ?_, ?_⟩
  · have key : ∀ l : List String, (∀ n ∈ l, n ≠ "") →
        (l.filterMap (fun name => (assocLookup reference name).map
            (fun t => XmlNode.stringElem name t))).filterMap nodeName =
          l.filter (fun n => (assocLookup reference n).isSome) := by
      intro l hl
      induction l with
      | nil => rfl
      | cons a l ih =>
        rw [List.filterMap_cons, List.filter_cons]
        cases hla : assocLookup reference a with
        | none =>
          simp [hla, ih (fun n hn => hl n (List.mem_cons_of_mem _ hn))]
        | some t =>
          have ha : a ≠ "" := hl a (List.mem_cons_self _ _)
          simp [hla, nodeName, ha, ih (fun n hn => hl n (List.mem_cons_of_mem _ hn))]
    exact key REQUIRED_TEMPLATES (by decide)
  · intro n t hmem
    rcases List.mem_filterMap.mp hmem with ⟨m, _, hm⟩
    cases hlm : assocLookup reference m with
    | none => rw [hlm] at hm; cases hm
    | some t' =>
      rw [hlm] at hm
      have h1 : XmlNode.stringElem m t' = XmlNode.stringElem n t :=
        Option.some.inj hm
      injection h1 with hn ht
      subst hn
      subst ht
      exact hlm
  · intro c hmem
    rcases List.mem_filterMap.mp hmem with ⟨m, _, hm⟩
    cases hlm : assocLookup reference m with
    | none => rw [hlm] at hm; cases hm
    | some t' =>
      rw [hlm] at hm
      cases Option.some.inj hm

/-- C3 (counterexample): with an absent file, a reference holding exactly the
first two required names and their texts, the created body is exactly those
two elements with the reference texts — and it contains no comment, so
neither entry carries the pending-translation annotation the claim
requires. -/
theorem C3_counterexample :
    update_template_file FileState.absent
        [("TPL_received_sms", "X"), ("TPL_received_mms", "Y")] =
      Except.ok (some
        [ XmlNode.stringElem ("TPL_received_sms") ("X"),
          XmlNode.stringElem ("TPL_received_mms") ("Y") ]) ∧
    ([ XmlNode.stringElem ("TPL_received_sms") ("X"),
       XmlNode.stringElem ("TPL_received_mms") ("Y") ].all
        (fun node => !(isCommentNode node)) = true) :=
  ⟨rfl, rfl⟩

/-- C3 (witness): the fresh body's element for `TPL_received_sms` carries
the reference text. -/
theorem C3_fresh_creation_witness :
    assocLookup [("TPL_received_sms", "X")] ("TPL_received_sms") = some ("X") :=
  (C3_fresh_creation [("TPL_received_sms", "X")]).2.2.1
    ("TPL_received_sms") ("X") (by decide)

/-- C1 (amended): `update_template_file` on an existing parsed file only
appends — the original children are a prefix of the written body and every
key of the existing dict keeps its value — and `create_template_xml`
preserves every existing entry in order with its text, provided all existing
names start with `TPL_` (as `parse_template_file` guarantees in the
pipeline); an entry whose name lacks the prefix is dropped, which the
counterexample records. -/
theorem C1_existing_entries_preserved :
    (∀ (nodes : List XmlNode) (reference : List (String × String)) (out : List XmlNode),
        update_template_file (FileState.parsed nodes) reference = Except.ok (some out) →
        nodes <+: out ∧
          ∀ k v, assocLookup (parse_template_xml (FileState.parsed nodes)) k = some v →
            assocLookup (parse_template_xml (FileState.parsed out)) k = some v)
    ∧
    (∀ (langCode : String) (existing : List (String × String)),
        (∀ p ∈ existing, startsWithStr p.1 ("TPL_") = true) →
        (existing.map (fun p => XLine.entry p.1 p.2)) <:+:
          create_template_lines langCode existing) := by
  constructor
  · intro nodes reference out h
    have hout := update_parsed_eq h
    subst hout
    refine ⟨List.prefix_append _ _, ?_⟩
    intro k v hk
    have hkm : keyMem (parse_template_xml (FileState.parsed nodes)) k = true :=
      keyMem_of_assocLookup_some hk
    have hne : ∀ p ∈ stringEntries
        ((missingOf (parse_template_xml (FileState.parsed nodes))).flatMap
          (additionFor reference)), p.1 ≠ k := by
      intro p hp hpk
      have hpm := name_mem_of_mem_additions hp
      have hfalse := (mem_missingOf_iff.mp hpm).2
      rw [hpk] at hfalse
      rw [hfalse] at hkm
      cases hkm
    exact parse_append_preserves hne hk
  · intro langCode existing hT
    have hmap : existing.filterMap (fun p =>
        if startsWithStr p.1 ("TPL_") then some (XLine.entry p.1 p.2) else none) =
        existing.map (fun p => XLine.entry p.1 p.2) :=
      filterMap_if_all (fun p => XLine.entry p.1 p.2)
        (fun p => startsWithStr p.1 ("TPL_")) existing hT
    refine ⟨[XLine.decl, XLine.openRes],
      (requiredFormat.filterMap (fun name =>
        if keyMem existing name then none
        else (assocLookup (langTranslations langCode) name).map
          (fun v => XLine.entry name v))) ++ [XLine.closeRes, XLine.blank], ?_⟩
    unfold create_template_lines
    rw [← hmap]
    simp [List.append_assoc]

/-- C1 (counterexample): an entry of the existing mapping whose name does
not start with `TPL_` is removed by `create_template_xml` — the updated
mapping is not a superset of every existing mapping. -/
theorem C1_counterexample :
    keyMem [("foo", "bar")] ("foo") = true ∧
    ("foo") ∉ (create_template_lines ("ru") [("foo", "bar")]).filterMap entryLineName :=
  ⟨by decide, by decide⟩

/-- C1 (witness): the amended preservation at concrete inputs. -/
theorem C1_existing_entries_preserved_witness :
    ([XmlNode.stringElem ("TPL_received_sms") ("hi")] <+:
      [ XmlNode.stringElem ("TPL_received_sms") ("hi"),
        XmlNode.comment (" TODO: Translate TPL_received_mms "),
        XmlNode.stringElem ("TPL_received_mms") ("Y") ]) ∧
    assocLookup (parse_template_xml (FileState.parsed
      [ XmlNode.stringElem ("TPL_received_sms") ("hi"),
        XmlNode.comment (" TODO: Translate TPL_received_mms "),
        XmlNode.stringElem ("TPL_received_mms") ("Y") ])) ("TPL_received_sms") =
      some ("hi") ∧
    ([("TPL_a", "v")].map (fun p => XLine.entry p.1 p.2) <:+:
      create_template_lines ("xx") [("TPL_a", "v")]) :=
  ⟨(C1_existing_entries_preserved.1 [XmlNode.stringElem ("TPL_received_sms") ("hi")]
      [("TPL_received_mms", "Y")] _ rfl).1,
   (C1_existing_entries_preserved.1 [XmlNode.stringElem ("TPL_received_sms") ("hi")]
      [("TPL_received_mms", "Y")] _ rfl).2 ("TPL_received_sms") ("hi") rfl,
   C1_existing_entries_preserved.2 ("xx") [("TPL_a", "v")] (by decide)⟩

/-- C2 (amended): for a non-empty existing mapping the two tools behave
differently from the claim's single rule.  In `create_template_xml` a
required key missing from `existing` is added with the language-specific
translation's text when one exists (with no annotation), and is omitted
entirely otherwise — there is no reference fallback.  In
`update_template_file` every missing required key present in the reference
dict is appended with the reference text preceded by a `TODO` comment — the
translation table is never consulted. -/
theorem C2_missing_template_texts :
    (∀ (langCode : String) (existing : List (String × String)) (n t : String),
        n ∈ requiredFormat → keyMem existing n = false →
        assocLookup (langTranslations langCode) n = some t →
        XLine.entry n t ∈ create_template_lines langCode existing)
    ∧
    (∀ (langCode : String) (existing : List (String × String)) (n : String),
        n ∈ requiredFormat → keyMem existing n = false →
        assocLookup (langTranslations langCode) n = none →
        n ∉ (create_template_lines langCode existing).filterMap entryLineName)
    ∧
    (∀ (nodes : List XmlNode) (reference : List (String × String)) (out : List XmlNode)
        (n t : String),
        update_template_file (FileState.parsed nodes) reference = Except.ok (some out) →
        n ∈ REQUIRED_TEMPLATES →
        keyMem (parse_template_xml (FileState.parsed nodes)) n = false →
        assocLookup reference n = some t →
        [ XmlNode.comment (" TODO: Translate " ++ n ++ " "),
          XmlNode.stringElem n t ] <:+: out) := by
  refine ⟨?_, ?_, ?_⟩
  · intro langCode existing n t hreq hkey htr
    have hmem : XLine.entry n t ∈ requiredFormat.filterMap (fun name =>
        if keyMem existing name then none
        else (assocLookup (langTranslations langCode) name).map
          (fun v => XLine.entry name v)) :=
      List.mem_filterMap.mpr ⟨n, hreq, by simp [hkey, htr]⟩
    simp only [create_template_lines, List.mem_append]
    exact Or.inl (Or.inr hmem)
  · intro langCode existing n hreq hkey htr hmem
    simp only [create_template_lines, List.filterMap_append, List.mem_append] at hmem
    rcases hmem with ((h1 | h2) | h3) | h4
    · simp [entryLineName] at h1
    · rcases List.mem_filterMap.mp h2 with ⟨l, hl, hln⟩
      rcases List.mem_filterMap.mp hl with ⟨p, hp, hpl⟩
      by_cases hs : startsWithStr p.1 ("TPL_") = true
      · rw [if_pos hs] at hpl
        cases Option.some.inj hpl
        have hpn : p.1 = n := Option.some.inj hln
        have hk : keyMem existing n = true :=
          List.any_eq_true.mpr ⟨p, hp, by simp [hpn]⟩
        rw [hk] at hkey
        cases hkey
      · rw [if_neg hs] at hpl
        cases hpl
    · rcases List.mem_filterMap.mp h3 with ⟨l, hl, hln⟩
      rcases List.mem_filterMap.mp hl with ⟨m, hm, hml⟩
      by_cases hkm : keyMem existing m = true
      · rw [if_pos hkm] at hml
        cases hml
      · rw [if_neg hkm] at hml
        cases hlook : assocLookup (langTranslations langCode) m with
        | none => rw [hlook] at hml; cases hml
        | some v =>
          rw [hlook] at hml
          cases Option.some.inj hml
          have hmn : m = n := Option.some.inj hln
          rw [hmn] at hlook
          rw [htr] at hlook
          cases hlook
    · simp [entryLineName] at h4
  · intro nodes reference out n t h hreq hkey htr
    have hout := update_parsed_eq h
    subst hout
    have hn : n ∈ missingOf (parse_template_xml (FileState.parsed nodes)) :=
      mem_missingOf_iff.mpr ⟨hreq, hkey⟩
    have hadd : additionFor reference n =
        [ XmlNode.comment (" TODO: Translate " ++ n ++ " "),
          XmlNode.stringElem n t ] := by
      simp [additionFor, htr]
    have hinf := infix_flatMap_of_mem (additionFor reference) hn
    rw [hadd] at hinf
    exact isInfix_append_left hinf

/-- C2 (counterexample): `TPL_receiving_call` is required, missing from a
non-empty existing mapping, and has no Russian translation; the claim says
it must be added with the reference text and a pending-translation
annotation, but `create_template_xml` (which takes no reference at all)
omits it entirely. -/
theorem C2_counterexample :
    ("TPL_receiving_call") ∈ requiredFormat ∧
    keyMem [("TPL_x", "v")] ("TPL_receiving_call") = false ∧
    assocLookup (langTranslations ("ru")) ("TPL_receiving_call") = none ∧
    ("TPL_receiving_call") ∉
      (create_template_lines ("ru") [("TPL_x", "v")]).filterMap entryLineName :=
  ⟨by decide, by decide, by decide, by decide⟩

/-- C2 (witness): the amended behaviour at concrete inputs — the Russian
translation text is used for a missing `TPL_system_message`, and the update
tool appends the reference text with its `TODO` comment. -/
theorem C2_missing_template_texts_witness :
    XLine.entry ("TPL_system_message")
        ("[Системная информация]\n\x7b\x7bMessage\x7d\x7d") ∈
      create_template_lines ("ru") [("TPL_x", "v")] ∧
    [ XmlNode.comment (" TODO: Translate TPL_received_mms "),
      XmlNode.stringElem ("TPL_received_mms") ("Y") ] <:+:
      [ XmlNode.stringElem ("TPL_received_sms") ("hi"),
        XmlNode.comment (" TODO: Translate TPL_received_mms "),
        XmlNode.stringElem ("TPL_received_mms") ("Y") ] :=
  ⟨C2_missing_template_texts.1 ("ru") [("TPL_x", "v")] ("TPL_system_message")
      ("[Системная информация]\n\x7b\x7bMessage\x7d\x7d") (by decide) (by decide) rfl,
   C2_missing_template_texts.2.2 [XmlNode.stringElem ("TPL_received_sms") ("hi")]
      [("TPL_received_mms", "Y")] _ ("TPL_received_mms") ("Y") rfl (by decide)
      (by decide) rfl⟩

/-- C7 (amended): for every language and mapping, `create_template_xml`
emits the XML declaration header first, wraps everything in the
`<resources>` container, puts one entry per appended line, and ends with a
trailing newline (the final blank line); every kept entry's text is emitted
verbatim — placeholders untouched — but nothing is escaped, which the
counterexample records for an ampersand. -/
theorem C7_writer_output_shape :
    ∀ (langCode : String) (existing : List (String × String)),
      (∃ rest, create_template_xml langCode existing =
          "<?xml version=\"1.0\" encoding=\"utf-8\"?>" ++ "\n" ++ rest) ∧
      (∃ s, create_template_xml langCode existing = s ++ "\n") ∧
      (∃ body, create_template_lines langCode existing =
          [XLine.decl, XLine.openRes] ++ body ++ [XLine.closeRes, XLine.blank] ∧
          ∀ l ∈ body, ∃ n v, l = XLine.entry n v) ∧
      (∀ p ∈ existing, startsWithStr p.1 ("TPL_") = true →
          XLine.entry p.1 p.2 ∈ create_template_lines langCode existing) := by
  intro langCode existing
  have hbody : create_template_lines langCode existing =
      [XLine.decl, XLine.openRes] ++
        (existing.filterMap (fun p =>
            if startsWithStr p.1 ("TPL_") then some (XLine.entry p.1 p.2) else none) ++
         requiredFormat.filterMap (fun name =>
            if keyMem existing name then none
            else (assocLookup (langTranslations langCode) name).map
              (fun v => XLine.entry name v))) ++
        [XLine.closeRes, XLine.blank] := by
    simp [create_template_lines, List.append_assoc]
  refine ⟨?_, ?_, ⟨_, hbody, ?_⟩, ?_⟩
  · obtain ⟨T, hT⟩ : ∃ T, create_template_lines langCode existing =
        XLine.decl :: XLine.openRes :: T :=
      ⟨_, by rw [hbody]; rfl⟩
    refine ⟨joinLines ((XLine.openRes :: T).map renderLine), ?_⟩
    unfold create_template_xml
    rw [hT, List.map_cons, joinLines_cons_of_ne_nil _ (by simp)]
    rfl
  · obtain ⟨F, hF, hFne⟩ : ∃ F, create_template_lines langCode existing =
        F ++ [XLine.blank] ∧ F ≠ [] := by
      refine ⟨[XLine.decl, XLine.openRes] ++
        (existing.filterMap (fun p =>
            if startsWithStr p.1 ("TPL_") then some (XLine.entry p.1 p.2) else none) ++
         requiredFormat.filterMap (fun name =>
            if keyMem existing name then none
            else (assocLookup (langTranslations langCode) name).map
              (fun v => XLine.entry name v))) ++ [XLine.closeRes], ?_, by simp⟩
      rw [hbody]
      simp [List.append_assoc]
    obtain ⟨a, l, rfl⟩ := List.exists_cons_of_ne_nil hFne
    refine ⟨joinLines (renderLine a :: l.map renderLine), ?_⟩
    unfold create_template_xml
    rw [hF, List.map_append, List.map_cons]
    exact joinLines_append_blank (renderLine a) (l.map renderLine)
  · intro l hl
    rcases List.mem_append.mp hl with h | h
    · rcases List.mem_filterMap.mp h with ⟨p, _, hp⟩
      by_cases hs : startsWithStr p.1 ("TPL_") = true
      · rw [if_pos hs] at hp
        exact ⟨p.1, p.2, (Option.some.inj hp).symm⟩
      · rw [if_neg hs] at hp
        cases hp
    · rcases List.mem_filterMap.mp h with ⟨m, _, hm⟩
      by_cases hk : keyMem existing m = true
      · rw [if_pos hk] at hm
        cases hm
      · rw [if_neg hk] at hm
        cases hlook : assocLookup (langTranslations langCode) m with
        | none => rw [hlook] at hm; cases hm
        | some v =>
          rw [hlook] at hm
          exact ⟨m, v, (Option.some.inj hm).symm⟩
  · intro p hp hs
    rw [hbody]
    simp only [List.mem_append]
    exact Or.inl (Or.inr (Or.inl (List.mem_filterMap.mpr ⟨p, hp, by rw [if_pos hs]⟩)))

set_option maxRecDepth 4000 in
/-- C7 (counterexample): an ampersand in an entry's text is written through
verbatim by `create_template_xml` — the output holds a bare `&` and no
`&amp;` anywhere — refuting the claim that structurally significant
characters are escaped. -/
theorem C7_counterexample :
    create_template_xml ("xx") [("TPL_x", "a & b")] =
      "<?xml version=\"1.0\" encoding=\"utf-8\"?>\n<resources>\n    <string name=\"TPL_x\">a & b</string>\n</resources>\n" ∧
    ("<?xml version=\"1.0\" encoding=\"utf-8\"?>\n<resources>\n    <string name=\"TPL_x\">a & b</string>\n</resources>\n").data.count ('&') = 1 ∧
    ¬ (("&amp;").data <:+:
      ("<?xml version=\"1.0\" encoding=\"utf-8\"?>\n<resources>\n    <string name=\"TPL_x\">a & b</string>\n</resources>\n").data) :=
  ⟨by decide, by decide, by decide⟩

/-- C7 (witness): an entry text is carried into the emitted lines verbatim. -/
theorem C7_writer_output_shape_witness :
    XLine.entry ("TPL_x") ("v") ∈ create_template_lines ("xx") [("TPL_x", "v")] :=
  (C7_writer_output_shape ("xx") [("TPL_x", "v")]).2.2.2 ("TPL_x", "v")
    (by decide) (by decide)

/-- C4: every entry of a category output file of the splitter comes from the
bundle, and — when bundle names are distinct, as dict-sourced bundles are —
every bundle entry whose name lies in a category's key set appears in that
category's (necessarily written) output file. -/
theorem C4_categorize_subset_complete :
    (∀ (schema : List (String × List String)) (b : List SElem) (f : String)
        (es : List SElem),
        (f, es) ∈ splitOutputs schema b → ∀ e ∈ es, e ∈ b)
    ∧
    (∀ (schema : List (String × List String)) (b : List SElem),
        (b.map SElem.name).Nodup →
        ∀ e ∈ b, ∀ f ks, (f, ks) ∈ schema → e.name ∈ ks →
          ∃ es, (f, es) ∈ splitOutputs schema b ∧ e ∈ es) := by
  constructor
  · intro schema b f es hmem e he
    rcases List.mem_filterMap.mp hmem with ⟨c, _, hc⟩
    cases hE : (categoryEntries c.2 b).isEmpty with
    | true => simp [hE] at hc
    | false =>
      simp [hE] at hc
      rcases hc with ⟨hf, hes⟩
      rw [← hes] at he
      exact mem_of_mem_categoryEntries he
  · intro schema b hnd e he f ks hks hkse
    have hmm : e ∈ categoryEntries ks b :=
      List.mem_filterMap.mpr
        ⟨e.name, mem_sortStrings.mpr hkse, findByName_eq_of_mem hnd he⟩
    have hne : (categoryEntries ks b).isEmpty = false := by
      cases hE : (categoryEntries ks b).isEmpty with
      | false => rfl
      | true =>
        rw [List.isEmpty_iff] at hE
        rw [hE] at hmm
        cases hmm
    refine ⟨categoryEntries ks b, List.mem_filterMap.mpr ⟨(f, ks), hks, ?_⟩, hmm⟩
    simp [hne]

/-- C4 (witness): subset and completeness at a concrete schema and bundle. -/
theorem C4_categorize_subset_complete_witness :
    (SElem.mk ("a") ("T")) ∈ [SElem.mk ("a") ("T")] ∧
    (∃ es, (("f.xml"), es) ∈
        splitOutputs [(("f.xml"), [("a")])] [SElem.mk ("a") ("T")] ∧
      (SElem.mk ("a") ("T")) ∈ es) :=
  ⟨C4_categorize_subset_complete.1 [(("f.xml"), [("a")])] [SElem.mk ("a") ("T")]
      ("f.xml") [SElem.mk ("a") ("T")] (by decide) (SElem.mk ("a") ("T")) (by decide),
   C4_categorize_subset_complete.2 [(("f.xml"), [("a")])] [SElem.mk ("a") ("T")]
      (by decide) (SElem.mk ("a") ("T")) (by decide) ("f.xml") [("a")]
      (by decide) (by decide)⟩

/-- C8: a bundle key belonging to no category of the schema lands in the
uncategorized set, and a key belonging to some category does not. -/
theorem C8_uncategorized_detection :
    ∀ (schema : List (String × List String)) (b : List SElem) (k : String),
      k ∈ b.map SElem.name →
      ((∀ c ∈ schema, k ∉ c.2) → k ∈ uncategorizedKeys schema b) ∧
      ((∃ c ∈ schema, k ∈ c.2) → k ∉ uncategorizedKeys schema b) := by
  intro schema b k hk
  constructor
  · intro h
    unfold uncategorizedKeys
    apply List.mem_filter.mpr
    refine ⟨hk, ?_⟩
    have hnot : k ∉ categorizedList schema b := by
      intro hmem
      rcases List.mem_flatMap.mp hmem with ⟨c, hc, hkc⟩
      exact h c hc (mem_sortStrings.mp (List.mem_of_mem_filter hkc))
    simp [hnot]
  · intro h hmem
    rcases h with ⟨c, hc, hkc⟩
    have hcat : k ∈ categorizedList schema b := by
      apply List.mem_flatMap.mpr
      refine ⟨c, hc, List.mem_filter.mpr ⟨mem_sortStrings.mpr hkc, ?_⟩⟩
      rcases List.mem_map.mp hk with ⟨e, he, hek⟩
      cases hf : findByName b k with
      | some _ => rfl
      | none =>
        unfold findByName at hf
        rw [List.find?_eq_none] at hf
        exact (hf e he (by simp [hek])).elim
    have := (List.mem_filter.mp hmem).2
    simp [hcat] at this

/-- C8 (witness): both directions at concrete schemas. -/
theorem C8_uncategorized_detection_witness :
    ("a") ∈ uncategorizedKeys [(("f.xml"), [("b")])] [SElem.mk ("a") ("T")] ∧
    ("a") ∉ uncategorizedKeys [(("f.xml"), [("a")])] [SElem.mk ("a") ("T")] :=
  ⟨(C8_uncategorized_detection [(("f.xml"), [("b")])] [SElem.mk ("a") ("T")] ("a")
      (by decide)).1 (by decide),
   (C8_uncategorized_detection [(("f.xml"), [("a")])] [SElem.mk ("a") ("T")] ("a")
      (by decide)).2 ⟨(("f.xml"), [("a")]), by decide, by decide⟩⟩

/-- C9: a category's output order is the sorted schema key order, a function
of the key set and the bundle as a mapping alone: permuting the key set or
the bundle's entries (names distinct) leaves the output sequence unchanged. -/
theorem C9_deterministic_category_order :
    ∀ (c1 c2 : List String) (b1 b2 : List SElem),
      c1.Perm c2 → b1.Perm b2 → (b1.map SElem.name).Nodup →
      categoryEntries c1 b1 = categoryEntries c2 b2 := by
  intro c1 c2 b1 b2 hc hb hnd
  unfold categoryEntries
  rw [sortStrings_eq_of_perm hc]
  apply List.filterMap_congr
  intro n _
  exact findByName_perm_eq hb hnd n

/-- C9 (witness): two permuted presentations of the same bundle and key set
give identical output sequences. -/
theorem C9_deterministic_category_order_witness :
    categoryEntries [("a"), ("b")] [SElem.mk ("b") ("U"), SElem.mk ("a") ("T")] =
      categoryEntries [("b"), ("a")] [SElem.mk ("a") ("T"), SElem.mk ("b") ("U")] :=
  C9_deterministic_category_order _ _ _ _ (by decide) (by decide) (by decide)

end LangPack
